import Mathlib

/-!
Shallow embedding of the trustgeek-os cooperative kernel core
(scheduler, guarded task stacks, tick source, driver resource cells)
together with theorems settling the specification claims.

Machine integers are modelled as Nat with explicit reduction modulo
2 ^ 32 where the Rust code uses wrapping u32 arithmetic.  Byte memory is
modelled as a function from offsets (relative to the allocation base) to
byte values; every stored byte is reduced modulo 256 at write time.
-/

namespace TrustGeek

/-! ### Stack allocator, from src/stack.rs -/

/-- Guard pattern written at both ends of every task stack (stack.rs, CANARY). -/
def CANARY : Nat := 0xDEADBEEF

/-- Width in bytes of one guard word (stack.rs, CANARY_BYTES). -/
def CANARY_BYTES : Nat := 4

/-- Total heap allocation for a requested stack size (stack.rs, allocation_size). -/
def allocation_size (stack_size : Nat) : Nat := stack_size + CANARY_BYTES * 2

/-- Byte j of the little-endian representation of the canary word. -/
def canaryByte (j : Nat) : Nat := CANARY / 256 ^ j % 256

/-- A guarded task stack: the requested usable size and the bytes of the
whole allocation, indexed by offset from the allocation base.  The usable
region is the half-open interval from CANARY_BYTES to CANARY_BYTES + size. -/
structure TaskStack where
  size : Nat
  mem : Nat → Nat

/-- Memory contents produced by TaskStack::new: the allocation is zeroed and
the canary word is written little-endian at offset 0 and at offset
CANARY_BYTES + size (stack.rs, write_bytes plus the two write_unaligned calls). -/
def initMem (size : Nat) : Nat → Nat := fun i =>
  if i < CANARY_BYTES then canaryByte i
  else if CANARY_BYTES + size ≤ i ∧ i < CANARY_BYTES + size + CANARY_BYTES then
    canaryByte (i - (CANARY_BYTES + size))
  else 0

/-- TaskStack::new in the case where the heap allocation succeeds. -/
def TaskStack.new (size : Nat) : TaskStack := ⟨size, initMem size⟩

/-- TaskStack::new including the possibility of heap-allocation failure,
which is decided by the oracle allocOk (stack.rs returns None then). -/
def TaskStack.tryNew (allocOk : Nat → Bool) (size : Nat) : Option TaskStack :=
  if allocOk size then some (TaskStack.new size) else none

/-- Little-endian unaligned u32 read at a byte offset (stack.rs, read_unaligned). -/
def readU32 (mem : Nat → Nat) (off : Nat) : Nat :=
  mem off % 256 + 256 * (mem (off + 1) % 256) + 65536 * (mem (off + 2) % 256) +
    16777216 * (mem (off + 3) % 256)

/-- TaskStack::verify: both guard words must still hold the canary pattern.
The lower guard word sits at offset 0 (stack_ptr minus CANARY_BYTES) and the
upper guard word at offset CANARY_BYTES + size (stack_ptr plus size). -/
def TaskStack.verify (st : TaskStack) : Bool :=
  readU32 st.mem 0 == CANARY && readU32 st.mem (CANARY_BYTES + st.size) == CANARY

/-- A single one-byte store into the allocation at the given offset. -/
def writeByte (mem : Nat → Nat) (off b : Nat) : Nat → Nat :=
  fun i => if i = off then b % 256 else mem i

/-- Apply a sequence of one-byte stores to a stack allocation, in order. -/
def applyWrites (st : TaskStack) : List (Nat × Nat) → TaskStack
  | [] => st
  | w :: ws => applyWrites { st with mem := writeByte st.mem w.1 w.2 } ws

/-! ### Tick source, from src/timer.rs -/

/-- System tick frequency in Hz (timer.rs, TICK_FREQUENCY_HZ). -/
def TICK_FREQUENCY_HZ : Nat := 1000

/-- Modulus of the 32-bit tick counter. -/
def U32_MOD : Nat := 2 ^ 32

/-- ms_to_ticks from timer.rs: ms.saturating_mul(TICK_FREQUENCY_HZ) / 1000.
The saturating u32 multiplication is the minimum with 2 ^ 32 - 1. -/
def ms_to_ticks (ms : Nat) : Nat := min (ms * TICK_FREQUENCY_HZ) (U32_MOD - 1) / 1000

/-! ### Basic facts about the stack guard words -/

lemma initMem_low (s i : Nat) (h : i < CANARY_BYTES) : initMem s i = canaryByte i := by
  unfold initMem
  rw [if_pos h]

lemma initMem_guard_hi (s i : Nat) (h1 : CANARY_BYTES + s ≤ i)
    (h2 : i < CANARY_BYTES + s + CANARY_BYTES) :
    initMem s i = canaryByte (i - (CANARY_BYTES + s)) := by
  unfold initMem
  rw [if_neg (by unfold CANARY_BYTES at *; omega), if_pos ⟨h1, h2⟩]

lemma verify_iff (st : TaskStack) :
    st.verify = true ↔
      readU32 st.mem 0 = CANARY ∧ readU32 st.mem (CANARY_BYTES + st.size) = CANARY := by
  simp [TaskStack.verify]

lemma verify_false_low (st : TaskStack) (h : readU32 st.mem 0 ≠ CANARY) :
    st.verify = false := by
  rw [Bool.eq_false_iff]
  intro hc
  exact h ((verify_iff st).1 hc).1

lemma verify_false_high (st : TaskStack)
    (h : readU32 st.mem (CANARY_BYTES + st.size) ≠ CANARY) : st.verify = false := by
  rw [Bool.eq_false_iff]
  intro hc
  exact h ((verify_iff st).1 hc).2

lemma readU32_initMem_low (s : Nat) : readU32 (initMem s) 0 = CANARY := by
  unfold readU32
  rw [initMem_low s 0 (by decide), initMem_low s 1 (by decide),
    initMem_low s 2 (by decide), initMem_low s 3 (by decide)]
  decide

lemma readU32_initMem_high (s : Nat) : readU32 (initMem s) (CANARY_BYTES + s) = CANARY := by
  unfold readU32
  have h0 := initMem_guard_hi s (CANARY_BYTES + s) (by omega) (by unfold CANARY_BYTES; omega)
  have h1 := initMem_guard_hi s (CANARY_BYTES + s + 1) (by omega) (by unfold CANARY_BYTES; omega)
  have h2 := initMem_guard_hi s (CANARY_BYTES + s + 2) (by omega) (by unfold CANARY_BYTES; omega)
  have h3 := initMem_guard_hi s (CANARY_BYTES + s + 3) (by omega) (by unfold CANARY_BYTES; omega)
  rw [h0, h1, h2, h3]
  have e0 : CANARY_BYTES + s - (CANARY_BYTES + s) = 0 := by omega
  have e1 : CANARY_BYTES + s + 1 - (CANARY_BYTES + s) = 1 := by omega
  have e2 : CANARY_BYTES + s + 2 - (CANARY_BYTES + s) = 2 := by omega
  have e3 : CANARY_BYTES + s + 3 - (CANARY_BYTES + s) = 3 := by omega
  rw [e0, e1, e2, e3]
  decide

/-- A freshly allocated stack passes verification. -/
lemma verify_new (s : Nat) : (TaskStack.new s).verify = true :=
  (verify_iff _).2 ⟨readU32_initMem_low s, readU32_initMem_high s⟩

lemma applyWrites_size (ws : List (Nat × Nat)) (st : TaskStack) :
    (applyWrites st ws).size = st.size := by
  induction ws generalizing st with
  | nil => rfl
  | cons w ws ih => simpa [applyWrites] using ih _

lemma applyWrites_mem_outside (ws : List (Nat × Nat)) (st : TaskStack)
    (hw : ∀ w ∈ ws, CANARY_BYTES ≤ w.1 ∧ w.1 < CANARY_BYTES + st.size)
    (i : Nat) (hi : i < CANARY_BYTES ∨ CANARY_BYTES + st.size ≤ i) :
    (applyWrites st ws).mem i = st.mem i := by
  induction ws generalizing st with
  | nil => rfl
  | cons w ws ih =>
    have hwhead := hw w (List.mem_cons_self w ws)
    have hne : i ≠ w.1 := by omega
    have htail : ∀ x ∈ ws,
        CANARY_BYTES ≤ x.1 ∧ x.1 < CANARY_BYTES + ({ st with mem := writeByte st.mem w.1 w.2 } : TaskStack).size := by
      intro x hx
      exact hw x (List.mem_cons_of_mem w hx)
    calc (applyWrites st (w :: ws)).mem i
        = (applyWrites { st with mem := writeByte st.mem w.1 w.2 } ws).mem i := rfl
      _ = writeByte st.mem w.1 w.2 i := ih _ htail (by simpa using hi)
      _ = st.mem i := if_neg hne

/-! ### Claim theorems about ms_to_ticks (C3) -/

/-- C3 counterexample: the claim states that ms_to_ticks ms equals
floor (ms * frequency / 1000) over unbounded integers, hence equals ms,
for every u32 value ms.  At ms = 4294967295 the saturating u32
multiplication caps the product, so the result is 4294967 instead. -/
theorem C3_ms_to_ticks_counterexample :
    ms_to_ticks 4294967295 = 4294967 ∧
    4294967295 * TICK_FREQUENCY_HZ / 1000 = 4294967295 ∧
    ms_to_ticks 4294967295 ≠ 4294967295 := by
  refine ⟨by decide, by decide, by decide⟩

/-- C3 amended: ms_to_ticks computes the saturating u32 product of ms and
the 1000 Hz tick frequency, divided by 1000.  For every ms up to 4294967
(where the product fits in u32) this equals floor (ms * 1000 / 1000) = ms;
for every larger u32 ms the product saturates and the result is 4294967. -/
theorem C3_ms_to_ticks_amended (ms : Nat) (hms : ms < U32_MOD) :
    ms_to_ticks ms = min (ms * TICK_FREQUENCY_HZ) (U32_MOD - 1) / 1000 ∧
    (ms ≤ 4294967 → ms_to_ticks ms = ms * 1000 / 1000 ∧ ms_to_ticks ms = ms) ∧
    (4294967 < ms → ms_to_ticks ms = 4294967) := by
  refine ⟨rfl, ?_, ?_⟩
  · intro hle
    have hcap : ms * TICK_FREQUENCY_HZ ≤ U32_MOD - 1 := by
      unfold TICK_FREQUENCY_HZ U32_MOD
      omega
    have hmin : min (ms * TICK_FREQUENCY_HZ) (U32_MOD - 1) = ms * TICK_FREQUENCY_HZ :=
      min_eq_left hcap
    unfold ms_to_ticks
    rw [hmin]
    unfold TICK_FREQUENCY_HZ
    exact ⟨rfl, Nat.mul_div_cancel ms (by norm_num)⟩
  · intro hgt
    have hcap : U32_MOD - 1 ≤ ms * TICK_FREQUENCY_HZ := by
      unfold TICK_FREQUENCY_HZ U32_MOD
      omega
    have hmin : min (ms * TICK_FREQUENCY_HZ) (U32_MOD - 1) = U32_MOD - 1 :=
      min_eq_right hcap
    unfold ms_to_ticks
    rw [hmin]
    decide

/-- C3 witness: the amended theorem applied at ms = 7. -/
theorem C3_ms_to_ticks_witness : ms_to_ticks 7 = 7 * 1000 / 1000 ∧ ms_to_ticks 7 = 7 :=
  (C3_ms_to_ticks_amended 7 (by decide)).2.1 (by decide)

/-! ### Claim theorems about the stack guard (C6, C9) -/

/-- C6 counterexample: the claim states that verify returns false after a
single out-of-bounds one-byte write at either guard boundary.  Writing the
byte value 0xDE at offset CANARY_BYTES - 1 (the byte immediately below the
usable region) stores exactly the canary byte already present there, and
verify still returns true. -/
theorem C6_verify_counterexample :
    (TaskStack.mk 8 (writeByte (TaskStack.new 8).mem (CANARY_BYTES - 1) 0xDE)).verify = true ∧
    (TaskStack.new 8).mem (CANARY_BYTES - 1) = 0xDE := by
  refine ⟨by decide, by decide⟩

/-- C6 amended: for every requested size s, verify returns true immediately
after allocation; and after a single out-of-bounds one-byte write at either
guard boundary — offset CANARY_BYTES - 1 just below the usable region, or
offset CANARY_BYTES + s just above it — with a value whose low byte differs
from the canary byte stored at that written boundary (0xDE below, 0xEF
above), verify returns false. -/
theorem C6_verify_amended (s b : Nat) :
    (TaskStack.new s).verify = true ∧
    (b % 256 ≠ 0xDE →
      (TaskStack.mk s (writeByte (TaskStack.new s).mem (CANARY_BYTES - 1) b)).verify = false) ∧
    (b % 256 ≠ 0xEF →
      (TaskStack.mk s (writeByte (TaskStack.new s).mem (CANARY_BYTES + s) b)).verify = false) := by
  refine ⟨verify_new s, ?_, ?_⟩
  · intro hlow
    apply verify_false_low
    show readU32 (writeByte (initMem s) (CANARY_BYTES - 1) b) 0 ≠ CANARY
    unfold readU32
    rw [show (0 : Nat) + 1 = 1 by rfl, show (0 : Nat) + 2 = 2 by rfl,
      show (0 : Nat) + 3 = 3 by rfl]
    have w0 : writeByte (initMem s) (CANARY_BYTES - 1) b 0 = canaryByte 0 := by
      rw [writeByte, if_neg (by decide)]
      exact initMem_low s 0 (by decide)
    have w1 : writeByte (initMem s) (CANARY_BYTES - 1) b 1 = canaryByte 1 := by
      rw [writeByte, if_neg (by decide)]
      exact initMem_low s 1 (by decide)
    have w2 : writeByte (initMem s) (CANARY_BYTES - 1) b 2 = canaryByte 2 := by
      rw [writeByte, if_neg (by decide)]
      exact initMem_low s 2 (by decide)
    have w3 : writeByte (initMem s) (CANARY_BYTES - 1) b 3 = b % 256 := by
      rw [writeByte, if_pos (by decide)]
    rw [w0, w1, w2, w3]
    have hc0 : canaryByte 0 = 0xEF := by decide
    have hc1 : canaryByte 1 = 0xBE := by decide
    have hc2 : canaryByte 2 = 0xAD := by decide
    rw [hc0, hc1, hc2]
    unfold CANARY
    omega
  · intro hhigh
    apply verify_false_high
    show readU32 (writeByte (initMem s) (CANARY_BYTES + s) b) (CANARY_BYTES + s) ≠ CANARY
    unfold readU32
    have w0 : writeByte (initMem s) (CANARY_BYTES + s) b (CANARY_BYTES + s) = b % 256 := by
      rw [writeByte, if_pos rfl]
    have w1 : writeByte (initMem s) (CANARY_BYTES + s) b (CANARY_BYTES + s + 1) = canaryByte 1 := by
      rw [writeByte, if_neg (by omega)]
      rw [initMem_guard_hi s (CANARY_BYTES + s + 1) (by omega) (by unfold CANARY_BYTES; omega)]
      congr 1
      omega
    have w2 : writeByte (initMem s) (CANARY_BYTES + s) b (CANARY_BYTES + s + 2) = canaryByte 2 := by
      rw [writeByte, if_neg (by omega)]
      rw [initMem_guard_hi s (CANARY_BYTES + s + 2) (by omega) (by unfold CANARY_BYTES; omega)]
      congr 1
      omega
    have w3 : writeByte (initMem s) (CANARY_BYTES + s) b (CANARY_BYTES + s + 3) = canaryByte 3 := by
      rw [writeByte, if_neg (by omega)]
      rw [initMem_guard_hi s (CANARY_BYTES + s + 3) (by omega) (by unfold CANARY_BYTES; omega)]
      congr 1
      omega
    rw [w0, w1, w2, w3]
    have hc1 : canaryByte 1 = 0xBE := by decide
    have hc2 : canaryByte 2 = 0xAD := by decide
    have hc3 : canaryByte 3 = 0xDE := by decide
    rw [hc1, hc2, hc3]
    unfold CANARY
    omega

/-- C6 witness: the amended theorem applied at size 8, writing 0xEF (the
upper-guard byte, but not the lower one) at the lower boundary and 0xDE
(the lower-guard byte, but not the upper one) at the upper boundary. -/
theorem C6_verify_amended_witness :
    (TaskStack.new 8).verify = true ∧
    (TaskStack.mk 8 (writeByte (TaskStack.new 8).mem (CANARY_BYTES - 1) 0xEF)).verify = false ∧
    (TaskStack.mk 8 (writeByte (TaskStack.new 8).mem (CANARY_BYTES + 8) 0xDE)).verify = false :=
  ⟨(C6_verify_amended 8 0xEF).1,
    (C6_verify_amended 8 0xEF).2.1 (by decide),
    (C6_verify_amended 8 0xDE).2.2 (by decide)⟩

/-- C9: verify depends only on the two guard words.  Any two allocation
contents that agree on the 4 bytes below the usable region (offsets 0 to
CANARY_BYTES - 1) and on the 4 bytes starting at offset size above the
usable region give the same verification result; and any sequence of
one-byte writes confined to the usable region leaves a freshly allocated
stack verifying true, so corruption strictly inside the stack is
undetectable. -/
theorem C9_verify_guard_only (s : Nat) (m1 m2 : Nat → Nat)
    (hlow : ∀ i, i < CANARY_BYTES → m1 i = m2 i)
    (hhigh : ∀ i, CANARY_BYTES + s ≤ i → i < CANARY_BYTES + s + CANARY_BYTES → m1 i = m2 i) :
    (TaskStack.mk s m1).verify = (TaskStack.mk s m2).verify ∧
    ∀ ws : List (Nat × Nat),
      (∀ w ∈ ws, CANARY_BYTES ≤ w.1 ∧ w.1 < CANARY_BYTES + s) →
      (applyWrites (TaskStack.new s) ws).verify = true := by
  constructor
  · have hl : readU32 m1 0 = readU32 m2 0 := by
      unfold readU32
      rw [hlow 0 (by decide), hlow 1 (by decide), hlow 2 (by decide), hlow 3 (by decide)]
    have hh : readU32 m1 (CANARY_BYTES + s) = readU32 m2 (CANARY_BYTES + s) := by
      unfold readU32
      rw [hhigh (CANARY_BYTES + s) (by omega) (by unfold CANARY_BYTES; omega),
        hhigh (CANARY_BYTES + s + 1) (by omega) (by unfold CANARY_BYTES; omega),
        hhigh (CANARY_BYTES + s + 2) (by omega) (by unfold CANARY_BYTES; omega),
        hhigh (CANARY_BYTES + s + 3) (by omega) (by unfold CANARY_BYTES; omega)]
    unfold TaskStack.verify
    rw [hl, hh]
  · intro ws hws
    have hsize : (applyWrites (TaskStack.new s) ws).size = s :=
      applyWrites_size ws (TaskStack.new s)
    have hmem : ∀ i, i < CANARY_BYTES ∨ CANARY_BYTES + s ≤ i →
        (applyWrites (TaskStack.new s) ws).mem i = initMem s i := fun i hi =>
      applyWrites_mem_outside ws (TaskStack.new s) hws i hi
    apply (verify_iff _).2
    rw [hsize]
    constructor
    · have : readU32 (applyWrites (TaskStack.new s) ws).mem 0 = readU32 (initMem s) 0 := by
        unfold readU32
        rw [hmem 0 (by unfold CANARY_BYTES; omega), hmem 1 (by unfold CANARY_BYTES; omega),
          hmem 2 (by unfold CANARY_BYTES; omega), hmem 3 (by unfold CANARY_BYTES; omega)]
      rw [this]
      exact readU32_initMem_low s
    · have : readU32 (applyWrites (TaskStack.new s) ws).mem (CANARY_BYTES + s) =
          readU32 (initMem s) (CANARY_BYTES + s) := by
        unfold readU32
        rw [hmem (CANARY_BYTES + s) (by omega), hmem (CANARY_BYTES + s + 1) (by omega),
          hmem (CANARY_BYTES + s + 2) (by omega), hmem (CANARY_BYTES + s + 3) (by omega)]
      rw [this]
      exact readU32_initMem_high s

/-- C9 witness: contents differing only inside the usable region verify
identically, and an in-bounds write sequence keeps a fresh stack verified. -/
theorem C9_verify_guard_only_witness :
    (TaskStack.mk 4 (initMem 4)).verify =
      (TaskStack.mk 4 (writeByte (initMem 4) 6 42)).verify ∧
    ∀ ws : List (Nat × Nat),
      (∀ w ∈ ws, CANARY_BYTES ≤ w.1 ∧ w.1 < CANARY_BYTES + 4) →
      (applyWrites (TaskStack.new 4) ws).verify = true :=
  C9_verify_guard_only 4 (initMem 4) (writeByte (initMem 4) 6 42)
    (fun i hi => by rw [writeByte, if_neg (by unfold CANARY_BYTES at hi; omega)])
    (fun i h1 _ => by rw [writeByte, if_neg (by unfold CANARY_BYTES at h1; omega)])

/-! ### Driver resource cells, from src/src/drivers/mod.rs

A DriverCell holds zero or one driver instance; every operation runs inside
one critical section, and the whole mainline is single threaded, so each
operation is one atomic state transition on an Option value.  Each
operation returns the new cell contents together with its own result. -/

namespace DriverHandle

/-- DriverHandle::take - removes and returns the instance, leaving the cell
empty; the result is none when the cell was already empty. -/
def take {T : Type} (c : Option T) : Option T × Option T := (none, c)

/-- DriverHandle::replace - installs a value, returning what was there. -/
def replace {T : Type} (c : Option T) (v : T) : Option T × Option T := (some v, c)

/-- DriverHandle::try_with - runs the operation against the instance if
present (the operation may mutate the instance and produce a result) and
returns its result, or none if the cell is empty. -/
def try_with {T R : Type} (c : Option T) (f : T → T × R) : Option T × Option R :=
  match c with
  | none => (none, none)
  | some t => (some (f t).1, some (f t).2)

/-- DriverHandle::is_ready - true iff the cell currently holds an instance. -/
def is_ready {T : Type} (c : Option T) : Bool := c.isSome

end DriverHandle

/-! ### OLED driver bring-up, from src/src/drivers/oled.rs

init_oled takes the bus out of the I2C cell, and either installs a newly
constructed display into the OLED cell, or fails.  Construction of the
display performs hardware transactions, so its outcome is a parameter.
The state carries both static cells touched by the function. -/

inductive DriverError
  | AlreadyInitialized
  | NotReady
  | InitFailed
deriving DecidableEq

structure DisplayState (Bus Oled : Type) where
  i2c : Option Bus
  oled : Option Oled

/-- init_oled: take the bus from the I2C cell (NotReady if absent); if the
OLED cell is already occupied, replace the bus and fail AlreadyInitialized;
otherwise construct the display from the bus (mkOled models
OledDisplay::new, which consumes the bus and may fail) and on success
install it; on construction failure return InitFailed - the source replaces
the bus into the I2C cell only on the AlreadyInitialized path. -/
def init_oled {Bus Oled : Type} (mkOled : Bus → Option Oled) (st : DisplayState Bus Oled) :
    DisplayState Bus Oled × Except DriverError Unit :=
  match st.i2c with
  | none => (st, Except.error DriverError.NotReady)
  | some bus =>
    if (st.oled.isSome : Bool) then
      ({ i2c := some bus, oled := st.oled }, Except.error DriverError.AlreadyInitialized)
    else
      match mkOled bus with
      | none => ({ i2c := none, oled := st.oled }, Except.error DriverError.InitFailed)
      | some d => ({ i2c := none, oled := some d }, Except.ok ())

/-! ### Claim theorems about the resource cells (C8, C4, C10) -/

/-- C8: take on an empty cell reports absent and leaves the cell empty;
take on an occupied cell removes and returns the instance leaving the cell
empty; and after a subsequent replace of a value, try_with finds the
instance present and returns the result of the operation on it. -/
theorem C8_take_replace_try_with {T R : Type} (c : Option T) (v : T) (f : T → T × R) :
    DriverHandle.take (none : Option T) = (none, none) ∧
    DriverHandle.take (some v) = (none, some v) ∧
    (DriverHandle.try_with (DriverHandle.replace (DriverHandle.take c).1 v).1 f =
      (some (f v).1, some (f v).2)) := by
  refine ⟨rfl, rfl, rfl⟩

/-- C4: the claim states that whenever the bus has been taken from the I2C
cell and construction of the OLED driver then fails, the bus is replaced
back into the I2C cell before returning, so every failing init_oled call
leaves the I2C cell occupied.  Evaluating init_oled on an occupied I2C
cell with a failing constructor shows the call returns InitFailed with the
I2C cell left empty: the bus is consumed by the failed construction and is
never replaced. -/
theorem C4_init_oled_bus_lost :
    init_oled (fun _ : Unit => (none : Option Unit))
        { i2c := some (), oled := (none : Option Unit) } =
      ({ i2c := none, oled := none }, Except.error DriverError.InitFailed) ∧
    (init_oled (fun _ : Unit => (none : Option Unit))
        { i2c := some (), oled := (none : Option Unit) }).1.i2c = none := by
  refine ⟨rfl, rfl⟩

/-- C10: calling init_oled while the OLED cell is occupied takes the bus,
puts the same bus back into the I2C cell, and returns AlreadyInitialized,
leaving the whole state exactly as it was. -/
theorem C10_init_oled_already_initialized {Bus Oled : Type} (mkOled : Bus → Option Oled)
    (st : DisplayState Bus Oled) (bus : Bus)
    (hi2c : st.i2c = some bus) (holed : st.oled.isSome = true) :
    init_oled mkOled st = (st, Except.error DriverError.AlreadyInitialized) := by
  cases st with
  | mk i2c oled =>
    simp only at hi2c
    subst hi2c
    simp [init_oled, holed]

/-- C10 witness: the theorem applied to concrete occupied cells. -/
theorem C10_init_oled_already_initialized_witness :
    init_oled (fun _ : Unit => (none : Option Unit))
        { i2c := some (), oled := some () } =
      ({ i2c := some (), oled := some () }, Except.error DriverError.AlreadyInitialized) :=
  C10_init_oled_already_initialized (fun _ : Unit => (none : Option Unit))
    { i2c := some (), oled := some () } () rfl rfl

/-! ### Cooperative scheduler, from src/src/scheduler.rs

Tasks are trait objects with internal mutable state; a task behaviour is
modelled by its priority, its requested stack size, and a poll function
from the number of completed polls and the current tick to the returned
command together with the one-byte stores the poll performs on the task's
own stack allocation. -/

/-- Maximum number of tasks supported by the kernel (scheduler.rs, MAX_TASKS). -/
def MAX_TASKS : Nat := 8

inductive SchedulerError
  | NoCapacity
  | OutOfMemory
deriving DecidableEq

inductive TaskCommand
  | Continue
  | SleepTicks (n : Nat)
  | SleepMs (ms : Nat)
  | Finished

inductive TaskPriority
  | Low
  | Normal
  | High
deriving DecidableEq

/-- Discriminant values of TaskPriority, which drive its derived Ord. -/
def TaskPriority.toNat : TaskPriority → Nat
  | .Low => 0
  | .Normal => 1
  | .High => 2

/-- The Task trait surface the scheduler consumes, plus a deterministic
model of the internal state evolution of the trait object: poll receives
the number of earlier polls and the current tick. -/
structure TaskBeh where
  priority : TaskPriority
  stack_size : Nat
  poll : Nat → Nat → TaskCommand × List (Nat × Nat)

/-- TaskSlot from scheduler.rs: id, behaviour, cached priority, next
eligible wake tick, finished flag, and the owned stack; pollCount tracks
how many times the task has been polled (the trait object state). -/
structure TaskSlot where
  id : Nat
  beh : TaskBeh
  pollCount : Nat
  priority : TaskPriority
  next_run_tick : Nat
  finished : Bool
  stack : TaskStack

/-- TaskSlot::new: caches the priority, allocates the stack (OutOfMemory
when the allocation oracle refuses), and starts ready at the given tick. -/
def TaskSlot.new (allocOk : Nat → Bool) (id : Nat) (beh : TaskBeh) (now : Nat) :
    Option TaskSlot :=
  match TaskStack.tryNew allocOk beh.stack_size with
  | none => none
  | some stack =>
    some { id := id, beh := beh, pollCount := 0, priority := beh.priority,
           next_run_tick := now, finished := false, stack := stack }

structure Scheduler where
  tasks : List TaskSlot
  next_id : Nat

/-- Scheduler::new. -/
def Scheduler.empty : Scheduler := { tasks := [], next_id := 1 }

/-- Scheduler::spawn: fail NoCapacity if the slot table is full, else
assign the next id (wrapping u32 increment), build the slot (OutOfMemory
if the stack allocation fails, with the id increment already performed),
and push it.  The second capacity test mirrors the error mapping on the
heapless push. -/
def Scheduler.spawn (s : Scheduler) (allocOk : Nat → Bool) (beh : TaskBeh) (now : Nat) :
    Scheduler × Except SchedulerError Nat :=
  if s.tasks.length = MAX_TASKS then (s, Except.error SchedulerError.NoCapacity)
  else
    let id := s.next_id
    let s1 : Scheduler := { s with next_id := (s.next_id + 1) % U32_MOD }
    match TaskSlot.new allocOk id beh now with
    | none => (s1, Except.error SchedulerError.OutOfMemory)
    | some slot =>
      if s1.tasks.length = MAX_TASKS then (s1, Except.error SchedulerError.NoCapacity)
      else ({ s1 with tasks := s1.tasks ++ [slot] }, Except.ok id)

/-- The sort relation of run_ready: higher priority first, ties broken by
ascending wake tick (scheduler.rs, the sort_unstable_by comparator; a slot
may come no later than another exactly when this relation holds). -/
def slotLE (a b : TaskSlot) : Prop :=
  b.priority.toNat < a.priority.toNat ∨
    (a.priority.toNat = b.priority.toNat ∧ a.next_run_tick ≤ b.next_run_tick)

instance : DecidableRel slotLE := fun a b =>
  inferInstanceAs (Decidable (_ ∨ _ ∧ _))

instance : IsTotal TaskSlot slotLE :=
  ⟨fun a b => by unfold slotLE; omega⟩

instance : IsTrans TaskSlot slotLE :=
  ⟨fun a b c hab hbc => by unfold slotLE at hab hbc ⊢; omega⟩

/-- The effect of the returned command on the wake tick and the finished
flag (the match in run_ready): Continue makes the task eligible again at
once, the two sleep commands set the wake tick with a wrapping u32 add and
a minimum delay of one tick, Finished marks the slot finished. -/
def applyCommand (now : Nat) (slot1 : TaskSlot) : TaskCommand → TaskSlot
  | TaskCommand.Continue => { slot1 with next_run_tick := now }
  | TaskCommand.SleepTicks n => { slot1 with next_run_tick := (now + max n 1) % U32_MOD }
  | TaskCommand.SleepMs ms =>
    { slot1 with next_run_tick := (now + max (ms_to_ticks ms) 1) % U32_MOD }
  | TaskCommand.Finished => { slot1 with finished := true }

/-- Poll a ready slot once: run the poll (recording its stack writes and
advancing the trait-object state), apply the returned command, then mark
the slot finished if the post-poll guard check fails. -/
def pollOnce (now : Nat) (slot : TaskSlot) : TaskSlot :=
  let pr := slot.beh.poll slot.pollCount now
  let slot1 : TaskSlot :=
    { slot with pollCount := slot.pollCount + 1, stack := applyWrites slot.stack pr.2 }
  let slot2 : TaskSlot := applyCommand now slot1 pr.1
  if ! slot2.stack.verify then { slot2 with finished := true } else slot2

/-- One iteration of the run_ready loop body for a single slot: skip it if
finished; mark it finished on a failed pre-poll guard check; skip it while
the current tick is below its wake tick (the plain u32 comparison of the
source); otherwise poll it once.  The second component records whether the
task was polled. -/
def stepSlot (now : Nat) (slot : TaskSlot) : TaskSlot × Bool :=
  if slot.finished then (slot, false)
  else if ! slot.stack.verify then ({ slot with finished := true }, false)
  else if now < slot.next_run_tick then (slot, false)
  else (pollOnce now slot, true)

/-- Scheduler::run_ready at the given current tick: sort the slots by the
comparator, process each slot once in that order, and return the new state
together with the ids of the tasks that were polled, in poll order.  Each
loop iteration touches only its own slot, so the loop is a map over the
sorted slot list. -/
def Scheduler.run_ready (s : Scheduler) (now : Nat) : Scheduler × List Nat :=
  let sorted := s.tasks.insertionSort slotLE
  ({ s with tasks := sorted.map (fun sl => (stepSlot now sl).1) },
    (sorted.filter (fun sl => (stepSlot now sl).2)).map TaskSlot.id)

/-- Scheduler::reap_finished: drop finished slots. -/
def Scheduler.reap_finished (s : Scheduler) : Scheduler :=
  { s with tasks := s.tasks.filter (fun sl => ! sl.finished) }

/-- Scheduler::task_count. -/
def Scheduler.task_count (s : Scheduler) : Nat := s.tasks.length

/-- The slots that run_ready polls at the given tick, in poll order. -/
def readySlots (s : Scheduler) (now : Nat) : List TaskSlot :=
  (s.tasks.insertionSort slotLE).filter (fun sl => (stepSlot now sl).2)

/-- State after a sequence of run_ready invocations at the given ticks. -/
def runSeq : Scheduler → List Nat → Scheduler
  | s, [] => s
  | s, now :: rest => runSeq (s.run_ready now).1 rest

/-- All task ids polled during a sequence of run_ready invocations. -/
def runSeqPolled : Scheduler → List Nat → List Nat
  | _, [] => []
  | s, now :: rest => (s.run_ready now).2 ++ runSeqPolled (s.run_ready now).1 rest

/-- A task behaviour that always returns Continue and writes nothing. -/
def contBeh (p : TaskPriority) : TaskBeh :=
  { priority := p, stack_size := 16, poll := fun _ _ => (TaskCommand.Continue, []) }

/-! ### Basic lemmas about the scheduler step -/

lemma stepSlot_of_finished (now : Nat) (slot : TaskSlot) (h : slot.finished = true) :
    stepSlot now slot = (slot, false) := by
  unfold stepSlot
  rw [if_pos h]

lemma applyCommand_id (now : Nat) (slot1 : TaskSlot) (c : TaskCommand) :
    (applyCommand now slot1 c).id = slot1.id := by
  cases c <;> rfl

lemma pollOnce_id (now : Nat) (slot : TaskSlot) : (pollOnce now slot).id = slot.id := by
  simp only [pollOnce]
  split
  · exact applyCommand_id now _ _
  · exact applyCommand_id now _ _

lemma stepSlot_id (now : Nat) (slot : TaskSlot) : (stepSlot now slot).1.id = slot.id := by
  unfold stepSlot
  split
  · rfl
  split
  · rfl
  split
  · rfl
  · exact pollOnce_id now slot

lemma stepSlot_polled_iff (now : Nat) (slot : TaskSlot) :
    (stepSlot now slot).2 = true ↔
      slot.finished = false ∧ slot.stack.verify = true ∧ slot.next_run_tick ≤ now := by
  unfold stepSlot
  split_ifs with h1 h2 h3 <;> simp_all

lemma run_ready_tasks (s : Scheduler) (now : Nat) :
    (s.run_ready now).1.tasks =
      (s.tasks.insertionSort slotLE).map (fun sl => (stepSlot now sl).1) := rfl

lemma run_ready_polled_eq (s : Scheduler) (now : Nat) :
    (s.run_ready now).2 = (readySlots s now).map TaskSlot.id := rfl

lemma run_ready_ids_perm (s : Scheduler) (now : Nat) :
    ((s.run_ready now).1.tasks.map TaskSlot.id).Perm (s.tasks.map TaskSlot.id) := by
  rw [run_ready_tasks, List.map_map]
  have hcongr : (s.tasks.insertionSort slotLE).map (TaskSlot.id ∘ fun sl => (stepSlot now sl).1) =
      (s.tasks.insertionSort slotLE).map TaskSlot.id :=
    List.map_congr_left (fun a _ => stepSlot_id now a)
  rw [hcongr]
  exact (List.perm_insertionSort slotLE s.tasks).map TaskSlot.id

lemma run_ready_nodup (s : Scheduler) (now : Nat)
    (hnd : (s.tasks.map TaskSlot.id).Nodup) :
    ((s.run_ready now).1.tasks.map TaskSlot.id).Nodup :=
  (run_ready_ids_perm s now).nodup_iff.2 hnd

lemma finished_slot_mem_run_ready (s : Scheduler) (now : Nat) (sl : TaskSlot)
    (hmem : sl ∈ s.tasks) (hfin : sl.finished = true) :
    sl ∈ (s.run_ready now).1.tasks := by
  rw [run_ready_tasks]
  refine List.mem_map.2 ⟨sl, ?_, ?_⟩
  · exact (List.perm_insertionSort slotLE s.tasks).mem_iff.2 hmem
  · rw [stepSlot_of_finished now sl hfin]

lemma finished_not_polled (s : Scheduler) (now : Nat) (sl : TaskSlot)
    (hnd : (s.tasks.map TaskSlot.id).Nodup) (hmem : sl ∈ s.tasks)
    (hfin : sl.finished = true) : sl.id ∉ (s.run_ready now).2 := by
  rw [run_ready_polled_eq]
  intro hin
  obtain ⟨pl, hplmem, hpid⟩ := List.mem_map.1 hin
  unfold readySlots at hplmem
  obtain ⟨hpl_sorted, hpl_pred⟩ := List.mem_filter.1 hplmem
  have hplmem2 : pl ∈ s.tasks :=
    (List.perm_insertionSort slotLE s.tasks).mem_iff.1 hpl_sorted
  have hplfin : pl.finished = false :=
    ((stepSlot_polled_iff now pl).1 (by simpa using hpl_pred)).1
  have heq : pl = sl := List.inj_on_of_nodup_map hnd hplmem2 hmem hpid
  rw [heq, hfin] at hplfin
  exact absurd hplfin (by decide)

/-! ### Claim theorems about spawn (C1) -/

/-- C1 counterexample: the claim states that whenever spawn returns an
error the entire scheduler state, including the next-id counter, is
identical to the state before the call.  Spawning on an empty scheduler
with a failing stack allocation returns OutOfMemory, yet the next-id
counter has advanced from 1 to 2, because the source increments it before
attempting the stack allocation. -/
theorem C1_spawn_counterexample :
    (Scheduler.empty.spawn (fun _ => false) (contBeh TaskPriority.Normal) 0).2 =
      Except.error SchedulerError.OutOfMemory ∧
    (Scheduler.empty.spawn (fun _ => false) (contBeh TaskPriority.Normal) 0).1.next_id ≠
      Scheduler.empty.next_id := by
  refine ⟨rfl, by decide⟩

/-- C1 amended: for every scheduler state within capacity, if spawn fails
NoCapacity the entire state is unchanged; if spawn fails OutOfMemory the
slot table is unchanged but the next-id counter has been advanced by one
(wrapping u32 increment). -/
theorem C1_spawn_error_state (s : Scheduler) (allocOk : Nat → Bool) (beh : TaskBeh)
    (now : Nat) (hlen : s.tasks.length ≤ MAX_TASKS) :
    (∀ s2, s.spawn allocOk beh now = (s2, Except.error SchedulerError.NoCapacity) → s2 = s) ∧
    (∀ s2, s.spawn allocOk beh now = (s2, Except.error SchedulerError.OutOfMemory) →
      s2.tasks = s.tasks ∧ s2.next_id = (s.next_id + 1) % U32_MOD) := by
  unfold Scheduler.spawn
  by_cases hfull : s.tasks.length = MAX_TASKS
  · rw [if_pos hfull]
    constructor
    · intro s2 h
      exact (Prod.mk.injEq _ _ _ _ ▸ congrArg id h : _ ∧ _).1.symm ▸ rfl
    · intro s2 h
      have h2 := congrArg Prod.snd h
      simp at h2
  · rw [if_neg hfull]
    cases hnew : TaskSlot.new allocOk s.next_id beh now with
    | none =>
      simp only [hnew]
      constructor
      · intro s2 h
        have h2 := congrArg Prod.snd h
        simp at h2
      · intro s2 h
        have h1 := congrArg Prod.fst h
        simp only at h1
        rw [← h1]
        exact ⟨rfl, rfl⟩
    | some slot =>
      simp only [hnew]
      rw [if_neg hfull]
      constructor
      · intro s2 h
        have h2 := congrArg Prod.snd h
        simp at h2
      · intro s2 h
        have h2 := congrArg Prod.snd h
        simp at h2

/-- C1 witness: the amended theorem applied to an empty scheduler whose
stack allocation fails. -/
theorem C1_spawn_error_state_witness :
    (Scheduler.empty.spawn (fun _ => false) (contBeh TaskPriority.Normal) 0).1.tasks =
      Scheduler.empty.tasks ∧
    (Scheduler.empty.spawn (fun _ => false) (contBeh TaskPriority.Normal) 0).1.next_id =
      (Scheduler.empty.next_id + 1) % U32_MOD :=
  (C1_spawn_error_state Scheduler.empty (fun _ => false) (contBeh TaskPriority.Normal) 0
    (by decide)).2
    (Scheduler.empty.spawn (fun _ => false) (contBeh TaskPriority.Normal) 0).1 rfl

/-! ### Claim theorems about tick wraparound (C2) -/

/-- A task behaviour that always sleeps 500 milliseconds. -/
def sleepBeh : TaskBeh :=
  { priority := TaskPriority.Normal, stack_size := 16,
    poll := fun _ _ => (TaskCommand.SleepMs 500, []) }

/-- A slot for that task, last eligible at tick 2 ^ 32 - 100. -/
def sleepSlot : TaskSlot :=
  { id := 1, beh := sleepBeh, pollCount := 0, priority := TaskPriority.Normal,
    next_run_tick := 4294967196, finished := false, stack := TaskStack.new 16 }

def sleepSched : Scheduler := { tasks := [sleepSlot], next_id := 2 }

/-- C2 failing input, evaluated on the embedded code: the task is polled at
tick t = 2 ^ 32 - 100 and returns SleepMs 500, so its wake tick becomes
(t + 500) mod 2 ^ 32 = 400.  At tick now = 2 ^ 32 - 50 the counter has
advanced only (now - t) mod 2 ^ 32 = 50 < 500 ticks, yet run_ready polls
the task again, because the readiness test is the plain unsigned
comparison now < wake_tick, which is not wraparound safe.  The claim
requires the task to be skipped at every such tick. -/
theorem C2_wraparound_code_bug :
    (sleepSched.run_ready 4294967196).2 = [1] ∧
    ((sleepSched.run_ready 4294967196).1.tasks.map TaskSlot.next_run_tick) = [400] ∧
    ((sleepSched.run_ready 4294967196).1.run_ready 4294967246).2 = [1] ∧
    (4294967246 - 4294967196) % U32_MOD = 50 ∧ (50 : Nat) < 500 := by
  refine ⟨rfl, rfl, rfl, by decide, by decide⟩

/-! ### Claim theorems about finished being terminal (C5) -/

/-- C5: for every scheduler state with distinct slot ids, once a slot is
marked finished — whether because its poll returned Finished or because a
stack-guard verification failed before or immediately after a poll — its
id never appears in the polled ids of any subsequent sequence of run_ready
invocations, no matter how the tick counter advances, and the slot is
still present with its finished flag set after the whole sequence. -/
theorem C5_finished_terminal (s : Scheduler) (sl : TaskSlot)
    (hnd : (s.tasks.map TaskSlot.id).Nodup) (hmem : sl ∈ s.tasks)
    (hfin : sl.finished = true) (nows : List Nat) :
    sl.id ∉ runSeqPolled s nows ∧ sl ∈ (runSeq s nows).tasks := by
  induction nows generalizing s with
  | nil => exact ⟨by simp [runSeqPolled], hmem⟩
  | cons now rest ih =>
    have h1 := finished_not_polled s now sl hnd hmem hfin
    have h2 := finished_slot_mem_run_ready s now sl hmem hfin
    have h3 := run_ready_nodup s now hnd
    have hrest := ih (s.run_ready now).1 h3 h2
    refine ⟨?_, by simpa [runSeq] using hrest.2⟩
    intro hin
    rcases List.mem_append.1 (by simpa [runSeqPolled] using hin) with hcase | hcase
    · exact h1 hcase
    · exact hrest.1 hcase

/-- A slot already marked finished, used to witness C5 concretely. -/
def finSlot : TaskSlot :=
  { id := 5, beh := contBeh TaskPriority.Normal, pollCount := 0,
    priority := TaskPriority.Normal, next_run_tick := 0, finished := true,
    stack := TaskStack.new 16 }

def finSched : Scheduler := { tasks := [finSlot], next_id := 6 }

/-- C5 witness: the theorem applied to a one-slot scheduler whose slot is
finished, across two run_ready invocations with a large tick advance. -/
theorem C5_finished_terminal_witness :
    (5 : Nat) ∉ runSeqPolled finSched [0, 1000000] ∧
    finSlot ∈ (runSeq finSched [0, 1000000]).tasks :=
  C5_finished_terminal finSched finSlot (by decide)
    (List.mem_cons_self finSlot []) rfl [0, 1000000]

/-! ### Claim theorems about poll ordering (C7) -/

lemma readySlots_pairwise (s : Scheduler) (now : Nat) :
    (readySlots s now).Pairwise slotLE := by
  unfold readySlots
  have hsorted : (s.tasks.insertionSort slotLE).Pairwise slotLE :=
    List.sorted_insertionSort slotLE s.tasks
  exact List.Pairwise.sublist (List.filter_sublist _) hsorted

lemma readySlots_mem (s : Scheduler) (now : Nat) (sl : TaskSlot) :
    sl ∈ readySlots s now ↔
      sl ∈ s.tasks ∧ sl.finished = false ∧ sl.stack.verify = true ∧
        sl.next_run_tick ≤ now := by
  unfold readySlots
  rw [List.mem_filter, (List.perm_insertionSort slotLE s.tasks).mem_iff]
  constructor
  · rintro ⟨hm, hp⟩
    exact ⟨hm, (stepSlot_polled_iff now sl).1 (by simpa using hp)⟩
  · rintro ⟨hm, hrest⟩
    exact ⟨hm, by simpa using (stepSlot_polled_iff now sl).2 hrest⟩

/-- Behaviour of scenario task B: Normal priority, sleeps 100 ms. -/
def behB : TaskBeh :=
  { priority := TaskPriority.Normal, stack_size := 16,
    poll := fun _ _ => (TaskCommand.SleepMs 100, []) }

/-- Task A (High, always Continue) and task B (Normal, SleepMs 100) both
spawned at tick 0; A receives id 1 and B id 2. -/
def schedAB : Scheduler :=
  ((Scheduler.empty.spawn (fun _ => true) (contBeh TaskPriority.High) 0).1.spawn
    (fun _ => true) behB 0).1

/-- The value of slot A after the run_ready calls at ticks 0 and 50. -/
def slotA2 : TaskSlot :=
  { id := 1, beh := contBeh TaskPriority.High, pollCount := 2,
    priority := TaskPriority.High, next_run_tick := 50, finished := false,
    stack := TaskStack.new 16 }

/-- The value of slot B after the run_ready calls at ticks 0 and 50. -/
def slotB2 : TaskSlot :=
  { id := 2, beh := behB, pollCount := 1, priority := TaskPriority.Normal,
    next_run_tick := 100, finished := false, stack := TaskStack.new 16 }

/-- C7: within one run_ready invocation the polled ids are the ids of the
ready slots in an order that respects the comparator (higher priority
strictly first, ties by ascending wake tick), and a slot is polled exactly
when it is present, not finished, passes its guard check, and its wake
tick has been reached.  Concretely, with A (High, always Continue, id 1)
and B (Normal, SleepMs 100, id 2) spawned at tick 0: run_ready at tick 0
polls A then B, at tick 50 polls only A, and at any tick of at least 100
polls A before B. -/
theorem C7_priority_order :
    (∀ s now, (s.run_ready now).2 = (readySlots s now).map TaskSlot.id ∧
      (readySlots s now).Pairwise slotLE ∧
      (∀ sl, sl ∈ readySlots s now ↔
        sl ∈ s.tasks ∧ sl.finished = false ∧ sl.stack.verify = true ∧
          sl.next_run_tick ≤ now)) ∧
    (schedAB.run_ready 0).2 = [1, 2] ∧
    ((schedAB.run_ready 0).1.run_ready 50).2 = [1] ∧
    ∀ now, 100 ≤ now →
      ((((schedAB.run_ready 0).1.run_ready 50).1).run_ready now).2 = [1, 2] := by
  refine ⟨fun s now => ⟨run_ready_polled_eq s now, readySlots_pairwise s now,
    fun sl => readySlots_mem s now sl⟩, rfl, rfl, ?_⟩
  intro now hnow
  show (Scheduler.run_ready { tasks := [slotA2, slotB2], next_id := 3 } now).2 = [1, 2]
  have hsort : List.insertionSort slotLE [slotA2, slotB2] = [slotA2, slotB2] := rfl
  have ha : (stepSlot now slotA2).2 = true :=
    (stepSlot_polled_iff now slotA2).2
      ⟨rfl, verify_new 16, by show (50 : Nat) ≤ now; omega⟩
  have hb : (stepSlot now slotB2).2 = true :=
    (stepSlot_polled_iff now slotB2).2
      ⟨rfl, verify_new 16, by show (100 : Nat) ≤ now; omega⟩
  simp only [Scheduler.run_ready, hsort, List.filter_cons, ha, hb]
  rfl

/-- C7 witness: the run at tick 150 after the runs at ticks 0 and 50
polls A before B. -/
theorem C7_priority_order_witness :
    ((((schedAB.run_ready 0).1.run_ready 50).1).run_ready 150).2 = [1, 2] :=
  C7_priority_order.2.2.2 150 (by decide)

end TrustGeek
